import Mathlib

/-!
Verification of the asset-fetch download-queue core against its specification.

The Go source is shallowly embedded:
* Go strings are `String` / `List Char`; Go byte slices are `List Nat`;
* Go `int` / `int64` are `Int`;
* the per-download mutable state (`DownloadQueue`, the bubbletea `model`)
  becomes explicit state passing;
* external collaborators (the SHA-256 primitive from `crypto/sha256`, the
  filesystem, the HTTP client) are parameters of the embedded functions.
-/

/-- Embeds the Go struct `AssetInfo` (src/unnamed/part_000, lines 43-55).
Field defaults mirror Go zero values. -/
structure AssetInfo where
  name : String := ""
  id : Int := 0
  url : String := ""
  downloadURL : String := ""
  size : Int := 0
  createdAt : String := ""
  releaseTag : String := ""
  releaseName : String := ""
  formattedDate : String := ""
  sizeStr : String := ""
  displayLine : String := ""
deriving DecidableEq, Repr, Inhabited

/-- Embeds the Go struct `DownloadProgress` (src/unnamed/part_000, lines 58-62). -/
structure DownloadProgress where
  downloadedBytes : Int := 0
  totalBytes : Int := 0
  completed : Bool := false
deriving DecidableEq, Repr, Inhabited

/-- Embeds the Go struct `DownloadQueue` (src/unnamed/part_000, lines 86-90;
identical copy in src/unnamed/part_006, lines 129-133). -/
structure DownloadQueue where
  assets : List AssetInfo := []
  progress : List DownloadProgress := []
  currentIndex : Int := 0
deriving DecidableEq, Repr, Inhabited

/-- Embeds `DownloadQueue.Add` (src/unnamed/part_000, lines 92-95):
appends the asset and a zero-valued progress entry. -/
def DownloadQueue.Add (dq : DownloadQueue) (asset : AssetInfo) : DownloadQueue :=
  { dq with
    assets := dq.assets ++ [asset]
    progress := dq.progress ++ [{}] }

/-- Embeds `DownloadQueue.AddMultiple` (src/unnamed/part_000, lines 97-101). -/
def DownloadQueue.AddMultiple (dq : DownloadQueue) (assets : List AssetInfo) : DownloadQueue :=
  assets.foldl DownloadQueue.Add dq

/-- Embeds `DownloadQueue.GetCurrent` (src/unnamed/part_000, lines 103-108):
the asset at the cursor, or `none` when the cursor is out of range
(the Go version returns a nil pointer). -/
def DownloadQueue.GetCurrent (dq : DownloadQueue) : Option AssetInfo :=
  if 0 ≤ dq.currentIndex ∧ dq.currentIndex < (dq.assets.length : Int) then
    dq.assets[dq.currentIndex.toNat]?
  else none

/-- Embeds `DownloadQueue.UpdateProgress` (src/unnamed/part_000, lines 110-118):
overwrites the progress entry at the cursor; `completed := downloaded >= total && total > 0`. -/
def DownloadQueue.UpdateProgress (dq : DownloadQueue) (downloaded total : Int) : DownloadQueue :=
  if 0 ≤ dq.currentIndex ∧ dq.currentIndex < (dq.progress.length : Int) then
    { dq with
      progress := dq.progress.set dq.currentIndex.toNat
        { downloadedBytes := downloaded
          totalBytes := total
          completed := decide (downloaded ≥ total ∧ total > 0) } }
  else dq

/-- Embeds `DownloadQueue.CompleteCurrentDownload` (src/unnamed/part_000, lines 120-136):
final size is `actualSize`, falling back to the asset's declared size and then to
the last recorded downloaded byte count whenever the previous choice is zero. -/
def DownloadQueue.CompleteCurrentDownload (dq : DownloadQueue) (actualSize : Int) : DownloadQueue :=
  if 0 ≤ dq.currentIndex ∧ dq.currentIndex < (dq.progress.length : Int) then
    let size1 : Int :=
      if actualSize = 0 then ((dq.assets[dq.currentIndex.toNat]?).getD default).size
      else actualSize
    let finalSize : Int :=
      if size1 = 0 then ((dq.progress[dq.currentIndex.toNat]?).getD default).downloadedBytes
      else size1
    { dq with
      progress := dq.progress.set dq.currentIndex.toNat
        { downloadedBytes := finalSize
          totalBytes := finalSize
          completed := true } }
  else dq

/-- Embeds `DownloadQueue.NextDownload` (src/unnamed/part_000, lines 138-141):
increments the cursor, returns whether a next asset exists. -/
def DownloadQueue.NextDownload (dq : DownloadQueue) : DownloadQueue × Bool :=
  let dq' := { dq with currentIndex := dq.currentIndex + 1 }
  (dq', decide (dq'.currentIndex < (dq'.assets.length : Int)))

/-- Embeds `DownloadQueue.IsEmpty` (src/unnamed/part_000, lines 143-145). -/
def DownloadQueue.IsEmpty (dq : DownloadQueue) : Bool :=
  dq.assets.length = 0

/-- Embeds `DownloadQueue.Reset` (src/unnamed/part_000, lines 147-151). -/
def DownloadQueue.reset : DownloadQueue :=
  { assets := [], progress := [], currentIndex := 0 }

/-- Loading the queue with a selection, as `handleAssetsInput` does on Enter
(src/unnamed/part_002, lines 262-277): `Reset()` then `AddMultiple(selected)`. -/
def loadQueue (selected : List AssetInfo) : DownloadQueue :=
  DownloadQueue.reset.AddMultiple selected

/-- Iterated `NextDownload`, discarding the returned booleans; used to state
queue-exhaustion properties. -/
def advanceN : Nat → DownloadQueue → DownloadQueue
  | 0, dq => dq
  | n + 1, dq => advanceN n dq.NextDownload.1

/-- Embeds Go `strings.Split(s, sep)` for a one-character separator
(used with `"*"` in src/download.go line 232 and with `":"` in line 310):
splits into the (always nonempty) list of fragments between occurrences of `c`. -/
def splitOnChar (c : Char) : List Char → List (List Char)
  | [] => [[]]
  | x :: xs =>
    if x = c then [] :: splitOnChar c xs
    else
      match splitOnChar c xs with
      | h :: t => (x :: h) :: t
      | [] => [[x]]

/-- Embeds the asset-mask filter of `fetchReleases` (src/download.go, lines 229-243):
the mask is split on `*`; exactly two fragments give a head/tail pattern, any other
fragment count makes the whole mask the head pattern with an empty tail; the name
matches when it starts with the head pattern and ends with the tail pattern. -/
def maskMatchesL (assetMask fileName : List Char) : Bool :=
  let parts := splitOnChar '*' assetMask
  let pair : List Char × List Char :=
    match parts with
    | [p, s] => (p, s)
    | _ => (assetMask, [])
  pair.1.isPrefixOf fileName && pair.2.isSuffixOf fileName

/-- String-level wrapper of `maskMatchesL`, matching the Go code's use of
`strings.HasPrefix` / `strings.HasSuffix` on Go strings. -/
def maskMatches (assetMask fileName : String) : Bool :=
  maskMatchesL assetMask.toList fileName.toList

/-! ### Lemmas about `splitOnChar` -/

theorem splitOnChar_ne_nil (c : Char) (l : List Char) : splitOnChar c l ≠ [] := by
  cases l with
  | nil => simp [splitOnChar]
  | cons x xs =>
    simp only [splitOnChar]
    split
    · simp
    · split
      · simp
      · simp

theorem splitOnChar_of_not_mem {c : Char} {l : List Char} (h : c ∉ l) :
    splitOnChar c l = [l] := by
  induction l with
  | nil => rfl
  | cons x xs ih =>
    have hx : x ≠ c := fun hxc => h (hxc ▸ List.mem_cons_self x xs)
    have hxs : c ∉ xs := fun hm => h (List.mem_cons_of_mem x hm)
    simp only [splitOnChar, if_neg hx, ih hxs]

theorem splitOnChar_append_sep {c : Char} {p : List Char} (s : List Char) (hp : c ∉ p) :
    splitOnChar c (p ++ c :: s) = p :: splitOnChar c s := by
  induction p with
  | nil => simp [splitOnChar]
  | cons x xs ih =>
    have hx : x ≠ c := fun hxc => hp (hxc ▸ List.mem_cons_self x xs)
    have hxs : c ∉ xs := fun hm => hp (List.mem_cons_of_mem x hm)
    simp only [List.cons_append, splitOnChar, if_neg hx, List.append_eq, ih hxs]

theorem splitOnChar_single_sep {c : Char} {p s : List Char} (hp : c ∉ p) (hs : c ∉ s) :
    splitOnChar c (p ++ c :: s) = [p, s] := by
  rw [splitOnChar_append_sep s hp, splitOnChar_of_not_mem hs]

theorem length_splitOnChar (c : Char) (l : List Char) :
    (splitOnChar c l).length = l.count c + 1 := by
  induction l with
  | nil => simp [splitOnChar]
  | cons x xs ih =>
    by_cases hx : x = c
    · subst hx
      simp [splitOnChar, ih, List.count_cons, Nat.add_comm]
    · obtain ⟨h, t, ht⟩ : ∃ h t, splitOnChar c xs = h :: t := by
        cases hsp : splitOnChar c xs with
        | nil => exact absurd hsp (splitOnChar_ne_nil c xs)
        | cons h t => exact ⟨h, t, rfl⟩
      simp only [splitOnChar, if_neg hx, ht]
      have := ih
      rw [ht] at this
      simp only [List.length_cons] at this ⊢
      rw [List.count_cons]
      simp [hx, this]

/-- C4 — For every mask containing exactly one `*` (written as the star-free
text `pre` before the star and the star-free text `suf` after it) and every
filename, the mask filter accepts the filename iff the filename starts with
`pre` and ends with `suf` (src/download.go, lines 229-243). -/
theorem c4_single_star_mask (pre suf fileName : List Char)
    (hp : '*' ∉ pre) (hs : '*' ∉ suf) :
    maskMatchesL (pre ++ '*' :: suf) fileName =
      (pre.isPrefixOf fileName && suf.isSuffixOf fileName) := by
  unfold maskMatchesL
  rw [splitOnChar_single_sep hp hs]

/-- Witness for C4 at the spec's example: mask `app-*-linux.tar.gz` accepts
`app-1.2-linux.tar.gz` and rejects `app-1.2-linux.zip`. -/
theorem c4_single_star_mask_witness :
    maskMatchesL ("app-".toList ++ '*' :: "-linux.tar.gz".toList) "app-1.2-linux.tar.gz".toList
        = true ∧
    maskMatchesL ("app-".toList ++ '*' :: "-linux.tar.gz".toList) "app-1.2-linux.zip".toList
        = false := by
  constructor
  · rw [c4_single_star_mask "app-".toList "-linux.tar.gz".toList "app-1.2-linux.tar.gz".toList
      (by decide) (by decide)]
    decide
  · rw [c4_single_star_mask "app-".toList "-linux.tar.gz".toList "app-1.2-linux.zip".toList
      (by decide) (by decide)]
    decide

/-- C5 counterexample — the claim says an empty mask matches no filename, but the
filter of `fetchReleases` (src/download.go, lines 229-243) treats the empty mask
as an empty literal head pattern, which every filename starts with: the empty
mask matches the filename `x`. -/
theorem c5_counterexample : maskMatchesL [] "x".toList = true := by decide

/-- C5 (amended) — for every mask with zero or more than one `*`, a filename
matches iff the entire mask is a literal starting segment of the filename; in
particular the empty mask matches every filename (the caller only avoids this
because `fetchReleases` skips filtering entirely when the mask is empty,
src/download.go line 218). -/
theorem c5_literal_mask (mask fileName : List Char) (h : mask.count '*' ≠ 1) :
    maskMatchesL mask fileName = mask.isPrefixOf fileName ∧
    maskMatchesL [] fileName = true := by
  constructor
  · have hlen : (splitOnChar '*' mask).length ≠ 2 := by
      rw [length_splitOnChar]
      omega
    unfold maskMatchesL
    have hsuf : List.isSuffixOf ([] : List Char) fileName = true := by
      simp [List.isSuffixOf]
    cases hsp : splitOnChar '*' mask with
    | nil => exact absurd hsp (splitOnChar_ne_nil '*' mask)
    | cons a t =>
      cases t with
      | nil => simp [hsuf]
      | cons b t2 =>
        cases t2 with
        | nil =>
          rw [hsp] at hlen
          simp at hlen
        | cons d t3 => simp [hsuf]
  · show maskMatchesL [] fileName = true
    unfold maskMatchesL
    simp [splitOnChar, List.isPrefixOf, List.isSuffixOf]

/-! ### Lemmas about `DownloadQueue` -/

theorem Add_assets_length (dq : DownloadQueue) (a : AssetInfo) :
    (dq.Add a).assets.length = dq.assets.length + 1 := by
  simp [DownloadQueue.Add]

theorem Add_progress_length (dq : DownloadQueue) (a : AssetInfo) :
    (dq.Add a).progress.length = dq.progress.length + 1 := by
  simp [DownloadQueue.Add]

theorem Add_currentIndex (dq : DownloadQueue) (a : AssetInfo) :
    (dq.Add a).currentIndex = dq.currentIndex := rfl

theorem AddMultiple_assets_length (dq : DownloadQueue) (l : List AssetInfo) :
    (dq.AddMultiple l).assets.length = dq.assets.length + l.length := by
  induction l generalizing dq with
  | nil => simp [DownloadQueue.AddMultiple]
  | cons a t ih =>
    show ((dq.Add a).AddMultiple t).assets.length = _
    rw [ih, Add_assets_length]
    simp
    omega

theorem AddMultiple_progress_length (dq : DownloadQueue) (l : List AssetInfo) :
    (dq.AddMultiple l).progress.length = dq.progress.length + l.length := by
  induction l generalizing dq with
  | nil => simp [DownloadQueue.AddMultiple]
  | cons a t ih =>
    show ((dq.Add a).AddMultiple t).progress.length = _
    rw [ih, Add_progress_length]
    simp
    omega

theorem AddMultiple_currentIndex (dq : DownloadQueue) (l : List AssetInfo) :
    (dq.AddMultiple l).currentIndex = dq.currentIndex := by
  induction l generalizing dq with
  | nil => rfl
  | cons a t ih =>
    show ((dq.Add a).AddMultiple t).currentIndex = _
    rw [ih, Add_currentIndex]

theorem NextDownload_fst (dq : DownloadQueue) :
    dq.NextDownload.1 = { dq with currentIndex := dq.currentIndex + 1 } := rfl

theorem advanceN_assets (n : Nat) (dq : DownloadQueue) :
    (advanceN n dq).assets = dq.assets := by
  induction n generalizing dq with
  | zero => rfl
  | succ m ih =>
    rw [advanceN, ih]
    rfl

theorem advanceN_progress (n : Nat) (dq : DownloadQueue) :
    (advanceN n dq).progress = dq.progress := by
  induction n generalizing dq with
  | zero => rfl
  | succ m ih =>
    rw [advanceN, ih]
    rfl

theorem advanceN_currentIndex (n : Nat) (dq : DownloadQueue) :
    (advanceN n dq).currentIndex = dq.currentIndex + n := by
  induction n generalizing dq with
  | zero => simp [advanceN]
  | succ m ih =>
    rw [advanceN, ih]
    show dq.currentIndex + 1 + (m : Int) = _
    push_cast
    ring

/-- C7 — After loading the queue with `n` assets both parallel lists have
length `n` and the cursor is `0`; after `n` advances `GetCurrent` is `none`;
`NextDownload` increments the cursor and returns `true` exactly when a next
asset exists; past the end every further advance keeps returning `false`
(src/unnamed/part_000, lines 85-151; load as in src/unnamed/part_002,
lines 262-277). -/
theorem c7_queue_invariants (selected : List AssetInfo) (k : Nat) (dq : DownloadQueue) :
    (loadQueue selected).assets.length = selected.length ∧
    (loadQueue selected).progress.length = selected.length ∧
    (loadQueue selected).currentIndex = 0 ∧
    (advanceN selected.length (loadQueue selected)).GetCurrent = none ∧
    dq.NextDownload.1.currentIndex = dq.currentIndex + 1 ∧
    (dq.NextDownload.2 = true ↔ dq.currentIndex + 1 < (dq.assets.length : Int)) ∧
    (advanceN (selected.length + k) (loadQueue selected)).NextDownload.2 = false := by
  have ha : (loadQueue selected).assets.length = selected.length := by
    unfold loadQueue
    rw [AddMultiple_assets_length]
    simp [DownloadQueue.reset]
  have hp : (loadQueue selected).progress.length = selected.length := by
    unfold loadQueue
    rw [AddMultiple_progress_length]
    simp [DownloadQueue.reset]
  have hc : (loadQueue selected).currentIndex = 0 := by
    unfold loadQueue
    rw [AddMultiple_currentIndex]
    rfl
  refine ⟨ha, hp, hc, ?_, rfl, by simp [DownloadQueue.NextDownload], ?_⟩
  · unfold DownloadQueue.GetCurrent
    rw [advanceN_currentIndex, advanceN_assets, hc, ha]
    simp
  · show decide _ = false
    rw [advanceN_currentIndex, advanceN_assets, hc, ha]
    simp
    omega

/-- C8 — With the cursor in range, `UpdateProgress downloaded total` overwrites
the cursor's progress entry with exactly those byte counts and sets `completed`
to `downloaded >= total && total > 0`, leaving the asset list and the cursor
unchanged (src/unnamed/part_000, lines 110-118). -/
theorem c8_update_progress (dq : DownloadQueue) (downloaded total : Int)
    (h0 : 0 ≤ dq.currentIndex) (h1 : dq.currentIndex < (dq.progress.length : Int)) :
    (dq.UpdateProgress downloaded total).progress[dq.currentIndex.toNat]? =
      some { downloadedBytes := downloaded
             totalBytes := total
             completed := decide (downloaded ≥ total ∧ total > 0) } ∧
    (dq.UpdateProgress downloaded total).assets = dq.assets ∧
    (dq.UpdateProgress downloaded total).currentIndex = dq.currentIndex ∧
    (dq.UpdateProgress downloaded total).progress.length = dq.progress.length := by
  have hn : dq.currentIndex.toNat < dq.progress.length := by omega
  unfold DownloadQueue.UpdateProgress
  rw [if_pos ⟨h0, h1⟩]
  refine ⟨?_, rfl, rfl, by simp⟩
  exact List.getElem?_set_eq_of_lt _ hn

/-- Witness for C8: a one-entry queue updated to 3 of 10 bytes. -/
theorem c8_update_progress_witness :
    (DownloadQueue.UpdateProgress ⟨[{ name := "a" }], [{}], 0⟩ 3 10).progress[(0 : Int).toNat]? =
      some { downloadedBytes := 3, totalBytes := 10, completed := decide ((3 : Int) ≥ 10 ∧ (10 : Int) > 0) } :=
  (c8_update_progress ⟨[{ name := "a" }], [{}], 0⟩ 3 10 (by decide) (by decide)).1

/-- C6 — With the cursor in range, `CompleteCurrentDownload actualSize`
finalizes the cursor's progress entry to `{downloaded := s, total := s,
completed := true}` with `s` picked by the priority chain: `actualSize` if
non-zero, else the asset's declared size if non-zero, else the last recorded
downloaded byte count (src/unnamed/part_000, lines 120-136). -/
theorem c6_complete_current (dq : DownloadQueue) (actualSize : Int)
    (h0 : 0 ≤ dq.currentIndex) (h1 : dq.currentIndex < (dq.progress.length : Int)) :
    (dq.CompleteCurrentDownload actualSize).progress[dq.currentIndex.toNat]? =
      some { downloadedBytes :=
               if actualSize ≠ 0 then actualSize
               else if ((dq.assets[dq.currentIndex.toNat]?).getD default).size ≠ 0 then
                 ((dq.assets[dq.currentIndex.toNat]?).getD default).size
               else ((dq.progress[dq.currentIndex.toNat]?).getD default).downloadedBytes
             totalBytes :=
               if actualSize ≠ 0 then actualSize
               else if ((dq.assets[dq.currentIndex.toNat]?).getD default).size ≠ 0 then
                 ((dq.assets[dq.currentIndex.toNat]?).getD default).size
               else ((dq.progress[dq.currentIndex.toNat]?).getD default).downloadedBytes
             completed := true } := by
  have hn : dq.currentIndex.toNat < dq.progress.length := by omega
  unfold DownloadQueue.CompleteCurrentDownload
  rw [if_pos ⟨h0, h1⟩]
  simp only
  rw [List.getElem?_set_eq_of_lt _ hn]
  by_cases hA : actualSize = 0
  · by_cases hS : ((dq.assets[dq.currentIndex.toNat]?).getD default).size = 0
    · simp [hA, hS]
    · simp [hA, hS]
  · simp [hA]

/-- Witness for C6 at the spec's example: `completeCurrent(0)` on an asset with
declared size 500 and last-seen downloaded 500 yields
`{downloaded := 500, total := 500, completed := true}`. -/
theorem c6_complete_current_witness :
    (DownloadQueue.CompleteCurrentDownload
        ⟨[{ name := "a", size := 500 }], [{ downloadedBytes := 500, totalBytes := 500 }], 0⟩
        0).progress[(0 : Int).toNat]? =
      some { downloadedBytes := 500, totalBytes := 500, completed := true } := by
  have h := c6_complete_current
    ⟨[{ name := "a", size := 500 }], [{ downloadedBytes := 500, totalBytes := 500 }], 0⟩
    0 (by decide) (by decide)
  rw [h]
  rfl

/-- C10 — For every queue whose parallel lists agree in length and whose cursor
is out of range (negative, or at/past the number of assets — in particular an
exhausted or an empty queue), `GetCurrent` returns `none` and both
`UpdateProgress` and `CompleteCurrentDownload` return the queue unchanged
(src/unnamed/part_000, lines 103-136; src/unnamed/part_006, lines 146-179). -/
theorem c10_out_of_range_safe (dq : DownloadQueue) (downloaded total actualSize : Int)
    (hlen : dq.progress.length = dq.assets.length)
    (hout : dq.currentIndex < 0 ∨ (dq.assets.length : Int) ≤ dq.currentIndex) :
    dq.GetCurrent = none ∧
    dq.UpdateProgress downloaded total = dq ∧
    dq.CompleteCurrentDownload actualSize = dq := by
  have hnot : ¬ (0 ≤ dq.currentIndex ∧ dq.currentIndex < (dq.progress.length : Int)) := by
    rw [hlen]
    omega
  have hnotA : ¬ (0 ≤ dq.currentIndex ∧ dq.currentIndex < (dq.assets.length : Int)) := by
    omega
  refine ⟨?_, ?_, ?_⟩
  · unfold DownloadQueue.GetCurrent
    rw [if_neg hnotA]
  · unfold DownloadQueue.UpdateProgress
    rw [if_neg hnot]
  · unfold DownloadQueue.CompleteCurrentDownload
    rw [if_neg hnot]

/-- Witness for C10: the empty queue (cursor 0, no assets) is exhausted; all
three operations are inert on it. -/
theorem c10_out_of_range_safe_witness :
    DownloadQueue.GetCurrent ⟨[], [], 0⟩ = none ∧
    DownloadQueue.UpdateProgress ⟨[], [], 0⟩ 7 9 = ⟨[], [], 0⟩ ∧
    DownloadQueue.CompleteCurrentDownload ⟨[], [], 0⟩ 4 = ⟨[], [], 0⟩ :=
  c10_out_of_range_safe ⟨[], [], 0⟩ 7 9 4 rfl (Or.inr (by decide))

/-! ### C9 — progress monotonicity -/

/-- A sequence of `UpdateProgress` calls applied in order, each pair being
`(downloaded, total)` (src/unnamed/part_002 line 121 issues one such call per
progress tick). -/
def applyUpdates (dq : DownloadQueue) (calls : List (Int × Int)) : DownloadQueue :=
  calls.foldl (fun q c => q.UpdateProgress c.1 c.2) dq

theorem UpdateProgress_currentIndex (dq : DownloadQueue) (d t : Int) :
    (dq.UpdateProgress d t).currentIndex = dq.currentIndex := by
  unfold DownloadQueue.UpdateProgress
  split <;> rfl

theorem UpdateProgress_progress_length (dq : DownloadQueue) (d t : Int) :
    (dq.UpdateProgress d t).progress.length = dq.progress.length := by
  unfold DownloadQueue.UpdateProgress
  split <;> simp

theorem applyUpdates_currentIndex (calls : List (Int × Int)) (dq : DownloadQueue) :
    (applyUpdates dq calls).currentIndex = dq.currentIndex := by
  induction calls generalizing dq with
  | nil => rfl
  | cons c cs ih =>
    show (applyUpdates (dq.UpdateProgress c.1 c.2) cs).currentIndex = _
    rw [ih, UpdateProgress_currentIndex]

theorem applyUpdates_progress_length (calls : List (Int × Int)) (dq : DownloadQueue) :
    (applyUpdates dq calls).progress.length = dq.progress.length := by
  induction calls generalizing dq with
  | nil => rfl
  | cons c cs ih =>
    show (applyUpdates (dq.UpdateProgress c.1 c.2) cs).progress.length = _
    rw [ih, UpdateProgress_progress_length]

theorem applyUpdates_append (dq : DownloadQueue) (l1 l2 : List (Int × Int)) :
    applyUpdates dq (l1 ++ l2) = applyUpdates (applyUpdates dq l1) l2 :=
  List.foldl_append _ _ _ _

/-- After a call sequence ending in `(d, t)` the cursor's entry is exactly the
record written by that last call. -/
theorem applyUpdates_last_entry (dq : DownloadQueue) (cs : List (Int × Int)) (d t : Int)
    (h0 : 0 ≤ dq.currentIndex) (h1 : dq.currentIndex < (dq.progress.length : Int)) :
    (applyUpdates dq (cs ++ [(d, t)])).progress[dq.currentIndex.toNat]? =
      some { downloadedBytes := d
             totalBytes := t
             completed := decide (d ≥ t ∧ t > 0) } := by
  rw [applyUpdates_append]
  show (DownloadQueue.UpdateProgress _ d t).progress[dq.currentIndex.toNat]? = _
  have hc : (applyUpdates dq cs).currentIndex = dq.currentIndex := applyUpdates_currentIndex cs dq
  have hl : (applyUpdates dq cs).progress.length = dq.progress.length :=
    applyUpdates_progress_length cs dq
  unfold DownloadQueue.UpdateProgress
  rw [if_pos (by rw [hc, hl]; exact ⟨h0, h1⟩), hc]
  exact List.getElem?_set_eq_of_lt _ (by rw [hl]; omega)

/-- C9 counterexample — the claim as stated is false: on a one-entry queue the
call `updateProgress(5, 5)` leaves the entry completed, yet the later call
`updateProgress(6, 10)` (a non-decreasing `downloaded` argument, but a larger
`total`) leaves it not completed, because `completed` is recomputed from each
call's own arguments (src/unnamed/part_000, lines 110-118). -/
theorem c9_counterexample :
    (DownloadQueue.UpdateProgress ⟨[{ name := "x" }], [{}], 0⟩ 5 5).progress[(0 : Nat)]?.map
        DownloadProgress.completed = some true ∧
    ((DownloadQueue.UpdateProgress ⟨[{ name := "x" }], [{}], 0⟩ 5 5).UpdateProgress 6 10
        ).progress[(0 : Nat)]?.map DownloadProgress.completed = some false ∧
    (5 : Int) ≤ 6 := by
  refine ⟨?_, ?_, by omega⟩ <;> rfl

/-- C9 (amended) — for a sequence of `updateProgress` calls on the same entry
whose `downloaded` arguments are non-decreasing and whose `total` argument is
the same in every call (as in the source, where every tick passes the asset's
declared size), once some call leaves the entry completed, every later call
also leaves it completed (src/unnamed/part_000, lines 110-118). -/
theorem c9_progress_monotone (dq : DownloadQueue) (calls : List (Int × Int)) (t : Int)
    (i j : Nat)
    (h0 : 0 ≤ dq.currentIndex) (h1 : dq.currentIndex < (dq.progress.length : Int))
    (htot : ∀ c ∈ calls, c.2 = t)
    (hmono : calls.Pairwise (fun a b => a.1 ≤ b.1))
    (hij : i ≤ j) (hj : j < calls.length)
    (hcomp : (applyUpdates dq (calls.take (i + 1))).progress[dq.currentIndex.toNat]?.map
        DownloadProgress.completed = some true) :
    (applyUpdates dq (calls.take (j + 1))).progress[dq.currentIndex.toNat]?.map
        DownloadProgress.completed = some true := by
  have hi : i < calls.length := Nat.lt_of_le_of_lt hij hj
  have htake : ∀ k : Nat, (hk : k < calls.length) →
      calls.take (k + 1) = calls.take k ++ [calls.get ⟨k, hk⟩] := by
    intro k hk
    rw [List.take_succ]
    congr 1
    simp [List.getElem?_eq_getElem hk]
  have hentry : ∀ k : Nat, (hk : k < calls.length) →
      (applyUpdates dq (calls.take (k + 1))).progress[dq.currentIndex.toNat]? =
        some { downloadedBytes := (calls.get ⟨k, hk⟩).1
               totalBytes := (calls.get ⟨k, hk⟩).2
               completed := decide ((calls.get ⟨k, hk⟩).1 ≥ (calls.get ⟨k, hk⟩).2 ∧
                 (calls.get ⟨k, hk⟩).2 > 0) } := by
    intro k hk
    rw [htake k hk]
    exact applyUpdates_last_entry dq (calls.take k) _ _ h0 h1
  rw [hentry i hi] at hcomp
  simp only [Option.map_some'] at hcomp
  have hci : ((calls.get ⟨i, hi⟩).1 ≥ (calls.get ⟨i, hi⟩).2 ∧ (calls.get ⟨i, hi⟩).2 > 0) := by
    have := Option.some.inj hcomp
    exact of_decide_eq_true this
  have hti : (calls.get ⟨i, hi⟩).2 = t := htot _ (calls.get_mem _ _)
  have htj : (calls.get ⟨j, hj⟩).2 = t := htot _ (calls.get_mem _ _)
  have hle : (calls.get ⟨i, hi⟩).1 ≤ (calls.get ⟨j, hj⟩).1 := by
    rcases Nat.lt_or_ge i j with hlt | hge
    · exact List.pairwise_iff_get.mp hmono ⟨i, hi⟩ ⟨j, hj⟩ hlt
    · have : i = j := Nat.le_antisymm hij hge
      subst this
      exact le_refl _
  rw [hentry j hj]
  simp only [Option.map_some', Option.some.injEq]
  have : ((calls.get ⟨j, hj⟩).1 ≥ (calls.get ⟨j, hj⟩).2 ∧ (calls.get ⟨j, hj⟩).2 > 0) := by
    rw [htj]
    rw [hti] at hci
    exact ⟨le_trans hci.1 hle, hci.2⟩
  exact decide_eq_true this

/-- Witness for C9 (amended): two calls `(10, 10)` then `(12, 10)` on a
one-entry queue; completed after the first call, still completed after the
second. -/
theorem c9_progress_monotone_witness :
    (applyUpdates ⟨[{ name := "x" }], [{}], 0⟩ ([(10, 10), (12, 10)].take (1 + 1))
        ).progress[(0 : Int).toNat]?.map DownloadProgress.completed = some true := by
  have h := c9_progress_monotone ⟨[{ name := "x" }], [{}], 0⟩ [(10, 10), (12, 10)] 10 0 1
    (by decide) (by decide) (by decide) (by decide) (by omega) (by decide) (by rfl)
  exact h

/-! ### Transfer engine: checksum verification and post-copy cleanup

The SHA-256 primitive (`crypto/sha256` + `hex.EncodeToString`, wrapped by
`calculateSHA256` in src/download.go lines 286-299) is an external collaborator:
it is a parameter `sha256hex` mapping the on-disk bytes to their hex digest
string. The on-disk bytes themselves stand in for the file read back by
`calculateSHA256`. -/

/-- The two failure shapes produced by `verifyChecksum`
(src/download.go lines 311-312 and 323-324). -/
inductive ChecksumError where
  | invalidFormat (digest : String)
  | mismatch (expected actual : String)
deriving DecidableEq, Repr

/-- Rendering of the two `fmt.Errorf` messages of `verifyChecksum`. -/
def renderChecksumError : ChecksumError → String
  | .invalidFormat d => "invalid digest format: " ++ d
  | .mismatch e a => "checksum verification failed: expected " ++ e ++ ", got " ++ a

/-- Embeds `verifyChecksum` (src/download.go, lines 301-328): empty digest skips
verification; the digest must split on `:` into exactly two parts with first
part the literal `sha256`; then the recomputed hex digest of the on-disk bytes
must equal the stated hex. `none` means verification passed. -/
def verifyChecksum (sha256hex : List Nat → String) (fileBytes : List Nat)
    (expectedDigest : String) : Option ChecksumError :=
  if expectedDigest = "" then none
  else
    match splitOnChar ':' expectedDigest.toList with
    | [alg, hexPart] =>
      if alg = "sha256".toList then
        let expectedSHA256 := String.mk hexPart
        let actualSHA256 := sha256hex fileBytes
        if actualSHA256 ≠ expectedSHA256 then some (.mismatch expectedSHA256 actualSHA256)
        else none
      else some (.invalidFormat expectedDigest)
    | _ => some (.invalidFormat expectedDigest)

/-- The two message shapes `downloadAsset` can return after the output file has
been created: `downloadErrorMsg` (a string) or `checksumVerifiedMsg`
(src/unnamed/part_000 line 173 and the literal at src/download.go
lines 114-118). -/
inductive EngineMsg where
  | errMsg (s : String)
  | checksumVerified (filename : String) (success : Bool) (err : String)
deriving DecidableEq, Repr

/-- Embeds the tail of `downloadAsset` after `io.Copy` returns
(src/download.go, lines 87-119). Inputs from the environment:
`copyFailed` — whether `io.Copy` returned an error; `ctxCancelled` — whether
the process-wide download context was cancelled; `writeErrText` — the rendering
of the copy error; `removeFails` — whether `os.Remove` of the partial file
fails. Result: the message reported to the session, paired with whether the
local file still exists afterwards. -/
def finishDownload (sha256hex : List Nat → String) (fileBytes : List Nat)
    (assetName digest writeErrText : String)
    (copyFailed ctxCancelled removeFails : Bool) : EngineMsg × Bool :=
  if copyFailed then
    if ctxCancelled then (.errMsg "Download cancelled by user", removeFails)
    else (.errMsg ("Error writing file: " ++ writeErrText), removeFails)
  else
    match verifyChecksum sha256hex fileBytes digest with
    | some e =>
      (.errMsg ("Checksum verification failed for " ++ assetName ++ ": " ++
        renderChecksumError e), removeFails)
    | none => (.checksumVerified assetName true "", true)

/-! ### Session state machine (the bubbletea `model` of src/unnamed/part_002) -/

/-- Embeds the Go enum `ViewState` (src/unnamed/part_000, lines 154-161). -/
inductive ViewState where
  | StateReleases
  | StateAssets
  | StateDownloading
  | StateFinished
deriving DecidableEq, Repr

/-- Embeds the download-lifecycle fields of the Go struct `model`
(src/unnamed/part_002, lines 12-42). Fields not read or written by the
download-lifecycle messages (list view, loading/quitting flags, URL fields)
are omitted. -/
structure Model where
  state : ViewState
  downloading : Bool := false
  downloadFinished : Bool := false
  downloadSuccess : Bool := false
  downloadResult : String := ""
  errorMsg : String := ""
  downloadQueue : DownloadQueue := {}
deriving DecidableEq, Repr

/-- Embeds the download-lifecycle messages handled by `model.Update`
(src/unnamed/part_000, lines 163-184). Environment reads are folded into the
message that triggers them: `globalProgress` is the mutex-guarded
`downloadProgress` read by the `updateDownloadProgressMsg` arm, `statSize` is
the `os.Stat` size read by the `checksumVerifiedMsg` arm (0 when stat fails,
as in the Go code). -/
inductive Msg where
  | startDownloadProgress (asset : AssetInfo)
  | updateDownloadProgress (asset : AssetInfo) (globalProgress : Int)
  | downloadError (s : String)
  | cancelDownload
  | checksumVerified (filename : String) (success : Bool) (err : String) (statSize : Int)
deriving DecidableEq, Repr

/-- The commands `model.Update` returns, abstracted from `tea.Cmd`:
`tick` for the progress ticker, `startNext a` for
`tea.Batch(startDownloadProgressMsg{a}, downloadAsset(a))`, `quit` for
`tea.Quit`, `nothing` for `nil`. -/
inductive Cmd where
  | nothing
  | tick
  | startNext (asset : AssetInfo)
  | quit
deriving DecidableEq, Repr

/-- Embeds the download-lifecycle arms of `model.Update`
(src/unnamed/part_002, lines 103-200). -/
def Model.Update (m : Model) (msg : Msg) : Model × Cmd :=
  match msg with
  | .startDownloadProgress _ =>
    ({ m with downloading := true, state := .StateDownloading }, .tick)
  | .updateDownloadProgress asset globalProgress =>
    ({ m with downloadQueue := m.downloadQueue.UpdateProgress globalProgress asset.size },
      .tick)
  | .downloadError _ =>
    let m1 := { m with downloading := false }
    let next := m1.downloadQueue.NextDownload
    if next.2 then
      ({ m1 with downloadQueue := next.1 }, .startNext (next.1.GetCurrent.getD default))
    else
      ({ m1 with
          downloadQueue := next.1
          downloadFinished := true
          downloadSuccess := false
          downloadResult := "Downloads completed with errors"
          state := .StateFinished }, .quit)
  | .cancelDownload =>
    ({ m with
        downloading := false
        errorMsg := "Download cancelled by user"
        state := .StateAssets }, .nothing)
  | .checksumVerified filename success err statSize =>
    let m1 := { m with
        downloading := false
        downloadQueue := m.downloadQueue.CompleteCurrentDownload statSize }
    if success then
      let next := m1.downloadQueue.NextDownload
      if next.2 then
        ({ m1 with downloadQueue := next.1 }, .startNext (next.1.GetCurrent.getD default))
      else
        ({ m1 with
            downloadQueue := next.1
            downloadFinished := true
            downloadSuccess := true
            downloadResult := "All files downloaded and verified successfully"
            state := .StateFinished }, .quit)
    else
      ({ m1 with
          downloadFinished := true
          downloadSuccess := false
          downloadResult := "Checksum verification failed for " ++ filename ++ ": " ++ err
          state := .StateFinished }, .quit)

/-! ### C1 — integrity verification -/

/-- C1 counterexample — the claim as stated is false: the digest `md5:00` is of
the form `<algorithm>:<hex>`, and the recomputed digest of the bytes of
`hello` (here `aa` under the supplied digest primitive) differs from the stated
hex `00`, so the claim predicts a checksum-mismatch failure; the code instead
rejects it as an invalid digest format, because `verifyChecksum` only accepts
the literal algorithm `sha256` (src/download.go, lines 310-312). -/
theorem c1_counterexample :
    (fun _ : List Nat => "aa") [104, 101, 108, 108, 111] ≠ "00" ∧
    verifyChecksum (fun _ => "aa") [104, 101, 108, 108, 111] "md5:00" =
      some (.invalidFormat "md5:00") ∧
    verifyChecksum (fun _ => "aa") [104, 101, 108, 108, 111] "md5:00" ≠
      some (.mismatch "00" "aa") := by
  refine ⟨by decide, by rfl, by rw [show verifyChecksum (fun _ => "aa")
    [104, 101, 108, 108, 111] "md5:00" = some (.invalidFormat "md5:00") from rfl]; decide⟩

/-- C1 (amended) — after a fully written file: an empty digest skips
verification and the transfer succeeds; a digest that does not split on `:`
into exactly two parts, or whose algorithm part is not the literal `sha256`,
fails with the invalid-digest-format error; a `sha256:<hex>` digest whose
recomputed digest of the on-disk bytes differs from the stated hex fails with
the checksum-mismatch error carrying expected and actual values and the file
is deleted (it only survives when the deletion itself fails); a matching
digest succeeds (src/download.go, lines 105-119 and 301-328). -/
theorem c1_checksum_verification (sha256hex : List Nat → String) (fileBytes : List Nat)
    (assetName digest : String) (hexPart : List Char) (removeFails : Bool) :
    (digest = "" →
      finishDownload sha256hex fileBytes assetName digest "" false false removeFails =
        (.checksumVerified assetName true "", true)) ∧
    ((splitOnChar ':' digest.toList).length ≠ 2 → digest ≠ "" →
      verifyChecksum sha256hex fileBytes digest = some (.invalidFormat digest)) ∧
    (∀ alg, splitOnChar ':' digest.toList = [alg, hexPart] → alg ≠ "sha256".toList →
      verifyChecksum sha256hex fileBytes digest = some (.invalidFormat digest)) ∧
    (splitOnChar ':' digest.toList = ["sha256".toList, hexPart] →
      sha256hex fileBytes ≠ String.mk hexPart →
      finishDownload sha256hex fileBytes assetName digest "" false false removeFails =
        (.errMsg ("Checksum verification failed for " ++ assetName ++ ": " ++
          renderChecksumError (.mismatch (String.mk hexPart) (sha256hex fileBytes))),
          removeFails)) ∧
    (splitOnChar ':' digest.toList = ["sha256".toList, hexPart] →
      sha256hex fileBytes = String.mk hexPart →
      finishDownload sha256hex fileBytes assetName digest "" false false removeFails =
        (.checksumVerified assetName true "", true)) := by
  have hne : ∀ a b : List Char, splitOnChar ':' digest.toList = [a, b] → digest ≠ "" := by
    intro a b hsp h
    subst h
    simp [splitOnChar] at hsp
  refine ⟨?_, ?_, ?_, ?_, ?_⟩
  · intro h
    subst h
    rfl
  · intro hlen h
    unfold verifyChecksum
    rw [if_neg h]
    cases hsp : splitOnChar ':' digest.toList with
    | nil => exact absurd hsp (splitOnChar_ne_nil _ _)
    | cons a t =>
      cases t with
      | nil => rfl
      | cons b t2 =>
        cases t2 with
        | nil =>
          rw [hsp] at hlen
          simp at hlen
        | cons d t3 => rfl
  · intro alg hsp halg
    unfold verifyChecksum
    rw [if_neg (hne _ _ hsp), hsp]
    exact if_neg halg
  · intro hsp hmis
    unfold finishDownload verifyChecksum
    rw [if_neg (hne _ _ hsp), hsp]
    simp only [if_pos rfl, if_pos hmis]
    rfl
  · intro hsp hmatch
    unfold finishDownload verifyChecksum
    rw [if_neg (hne _ _ hsp), hsp]
    simp [hmatch]

/-- Witness for C1 (amended): digest `sha256:aa` with a digest primitive that
maps the file bytes to `aa` — verification succeeds and the file survives. -/
theorem c1_checksum_verification_witness :
    finishDownload (fun _ => "aa") [1, 2] "f.bin" "sha256:aa" "" false false false =
      (.checksumVerified "f.bin" true "", true) :=
  (c1_checksum_verification (fun _ => "aa") [1, 2] "f.bin" "sha256:aa" "aa".toList false).2.2.2.2
    (by decide) (by decide)

/-- C2 — If the process-wide cancellation signal has fired when the in-flight
copy fails, the engine reports exactly the cancellation error (for every
rendering of the underlying write error, and whether or not the cleanup
deletion fails — deletion failures are swallowed), the partial file is gone
whenever the deletion succeeds, a write-error report is never equal to the
cancellation report, and the session's `downloadErrorMsg` arm leaves every
progress entry untouched, so the current entry is not marked completed
(src/download.go, lines 87-103; src/unnamed/part_002, lines 130-151). -/
theorem c2_cancellation (sha256hex : List Nat → String) (fileBytes : List Nat)
    (assetName digest writeErrText failMsg : String) (removeFails : Bool) (m : Model) :
    (finishDownload sha256hex fileBytes assetName digest writeErrText
        true true removeFails).1 = .errMsg "Download cancelled by user" ∧
    (finishDownload sha256hex fileBytes assetName digest writeErrText
        true true false).2 = false ∧
    (EngineMsg.errMsg ("Error writing file: " ++ writeErrText) ≠
      EngineMsg.errMsg "Download cancelled by user") ∧
    (m.Update (.downloadError failMsg)).1.downloadQueue.progress =
      m.downloadQueue.progress := by
  refine ⟨rfl, rfl, ?_, ?_⟩
  · intro h
    have hs : "Error writing file: " ++ writeErrText = "Download cancelled by user" := by
      injection h
    have hd := congrArg String.data hs
    rw [String.data_append] at hd
    have h2 := congrArg List.head? hd
    rw [List.head?_append_of_ne_nil] at h2
    · exact absurd h2 (by decide)
    · decide
  · show (Model.Update m (.downloadError failMsg)).1.downloadQueue.progress = _
    unfold Model.Update
    simp only
    split <;> rfl

/-- Witness for C2: concrete cancelled transfer — outcome is the cancellation
message and the partial file is removed. -/
theorem c2_cancellation_witness :
    (finishDownload (fun _ => "aa") [1] "f" "" "disk full" true true false).1 =
      .errMsg "Download cancelled by user" ∧
    (finishDownload (fun _ => "aa") [1] "f" "" "disk full" true true false).2 = false := by
  have h := c2_cancellation (fun _ => "aa") [1] "f" "" "disk full" "boom" false
    { state := .StateDownloading }
  exact ⟨h.1, h.2.1⟩

/-- C3 — In the `Downloading` state a per-asset transfer failure only
terminates that asset's transfer: the handler keeps the asset and progress
lists intact, advances the cursor exactly once (no retry), starts the next
asset's transfer and stays in `Downloading` when one remains, and reaches
`Finished` with the partial-failure summary `Downloads completed with errors`
only when no assets remain (src/unnamed/part_002, lines 130-151; checksum
mismatches arrive through this same `downloadErrorMsg` arm,
src/download.go lines 105-112). -/
theorem c3_failure_is_local (m : Model) (failMsg : String)
    (hst : m.state = .StateDownloading) (h0 : 0 ≤ m.downloadQueue.currentIndex) :
    (m.Update (.downloadError failMsg)).1.downloadQueue.assets = m.downloadQueue.assets ∧
    (m.Update (.downloadError failMsg)).1.downloadQueue.progress = m.downloadQueue.progress ∧
    (m.Update (.downloadError failMsg)).1.downloadQueue.currentIndex =
      m.downloadQueue.currentIndex + 1 ∧
    (m.downloadQueue.currentIndex + 1 < (m.downloadQueue.assets.length : Int) →
      (m.Update (.downloadError failMsg)).1.state = .StateDownloading ∧
      (m.Update (.downloadError failMsg)).1.downloadFinished = m.downloadFinished ∧
      (m.Update (.downloadError failMsg)).2 =
        .startNext ((m.downloadQueue.assets[(m.downloadQueue.currentIndex + 1).toNat]?).getD
          default)) ∧
    (¬ m.downloadQueue.currentIndex + 1 < (m.downloadQueue.assets.length : Int) →
      (m.Update (.downloadError failMsg)).1.state = .StateFinished ∧
      (m.Update (.downloadError failMsg)).1.downloadSuccess = false ∧
      (m.Update (.downloadError failMsg)).1.downloadResult = "Downloads completed with errors" ∧
      (m.Update (.downloadError failMsg)).2 = .quit) := by
  unfold Model.Update
  simp only
  by_cases hnext : m.downloadQueue.currentIndex + 1 < (m.downloadQueue.assets.length : Int)
  · have hb : m.downloadQueue.NextDownload.2 = true := by
      unfold DownloadQueue.NextDownload
      simpa using hnext
    rw [if_pos hb]
    refine ⟨rfl, rfl, rfl, fun _ => ⟨hst, rfl, ?_⟩, fun hc => absurd hnext hc⟩
    unfold DownloadQueue.GetCurrent DownloadQueue.NextDownload
    simp only
    rw [if_pos ⟨by omega, by simpa using hnext⟩]
  · have hb : m.downloadQueue.NextDownload.2 = false := by
      unfold DownloadQueue.NextDownload
      simpa using hnext
    rw [if_neg (by rw [hb]; exact Bool.false_ne_true)]
    exact ⟨rfl, rfl, rfl, fun hc => absurd hc hnext, fun _ => ⟨rfl, rfl, rfl, rfl⟩⟩

/-- Witness for C3: a two-asset queue in `Downloading` with the cursor on the
first asset; a failure advances to the second asset and starts its transfer. -/
theorem c3_failure_is_local_witness :
    (Model.Update
        { state := .StateDownloading
          downloadQueue := ⟨[{ name := "a" }, { name := "b" }], [{}, {}], 0⟩ }
        (.downloadError "HTTP error: 404")).1.downloadQueue.currentIndex = 0 + 1 ∧
    (Model.Update
        { state := .StateDownloading
          downloadQueue := ⟨[{ name := "a" }, { name := "b" }], [{}, {}], 0⟩ }
        (.downloadError "HTTP error: 404")).2 = .startNext { name := "b" } := by
  have h := c3_failure_is_local
    { state := .StateDownloading
      downloadQueue := ⟨[{ name := "a" }, { name := "b" }], [{}, {}], 0⟩ }
    "HTTP error: 404" rfl (by decide)
  exact ⟨h.2.2.1, ((h.2.2.2.1 (by decide)).2.2).trans (by rfl)⟩

/-- Witness for C5 (amended): the two-star mask `a*b*c` is matched literally,
accepting `a*b*cd`. -/
theorem c5_literal_mask_witness :
    maskMatchesL "a*b*c".toList "a*b*cd".toList = "a*b*c".toList.isPrefixOf "a*b*cd".toList ∧
    maskMatchesL [] "a*b*cd".toList = true :=
  c5_literal_mask "a*b*c".toList "a*b*cd".toList (by decide)

/-- Witness for C7 at a concrete two-asset selection. -/
theorem c7_queue_invariants_witness :
    (loadQueue [{ name := "a" }, { name := "b" }]).assets.length = 2 ∧
    (advanceN 2 (loadQueue [{ name := "a" }, { name := "b" }])).GetCurrent = none := by
  have h := c7_queue_invariants [{ name := "a" }, { name := "b" }] 0 {}
  exact ⟨h.1, h.2.2.2.1⟩
